import Mathlib

/-!
Verification of the gae-js datastore repository layer.

Shallow embedding of:
- `src/packages/gae-js-datastore/src/datastore/timestamped-repository.ts`
  (TimestampedRepository: GENERATE_FLAG, newTimestampedEntity,
  updateTimestamps, beforePersist, DISABLE_TIMESTAMP_UPDATE flag);
- the recursive `deleteCollection` batch-delete helper of `src/unnamed/part_000`;
- the DatastoreRepository core (get, getRequired, save, insert, delete, query,
  search synchronization), whose implementation is not part of the given source
  tree (only its test suite is), modelled from the specification.

Dates are modelled as milliseconds since the epoch (an `Int`); an absent field
is `Option.none`. JavaScript truthiness of a `Date` field reduces to presence,
since every `Date` object is truthy.
-/

namespace GaeJs

/-! ## Timestamped repository (from timestamped-repository.ts) -/

/-- A JavaScript `Date`, as milliseconds since the epoch. -/
abbrev DateMs := Int

/-- Source: `const GENERATE_FLAG = new Date(-8640000000000000)` — the reserved
sentinel date meaning "assign on first save". -/
def GENERATE_FLAG : DateMs := -8640000000000000

/-- Source: `TimestampedEntity extends BaseEntity` — a string id, the two
timestamp fields, and the remaining field bag of the entity. -/
structure TimestampedEntity where
  id : String
  createdAt : Option DateMs
  updatedAt : Option DateMs
  rest : List (String × String)
deriving DecidableEq, Repr

/-- Source: `newTimestampedEntity(id)` — both timestamps start as the
`GENERATE_FLAG` sentinel. -/
def newTimestampedEntity (id : String) : TimestampedEntity :=
  { id := id, createdAt := some GENERATE_FLAG, updatedAt := some GENERATE_FLAG, rest := [] }

/-- Source: `OneOrMany<T>` of gae-js-core: a single value or a (readonly)
array of values. -/
inductive OneOrMany (α : Type) where
  | one (a : α)
  | many (l : List α)
deriving DecidableEq, Repr

/-- Source: `TimestampedRepository.updateTimestamps`. The first argument is
the `DISABLE_TIMESTAMP_UPDATE` request-storage flag (default `false`), the
second the current time (`new Date()`).
`!entity.createdAt` is true exactly when the field is absent, since a `Date`
object is always truthy. -/
def updateTimestamps (disableFlag : Bool) (now : DateMs)
    (entity : TimestampedEntity) : TimestampedEntity :=
  if disableFlag then entity
  else
    { entity with
      createdAt :=
        if entity.createdAt = none ∨ entity.createdAt = some GENERATE_FLAG then some now
        else entity.createdAt
      updatedAt := some now }

/-- Modelled from the spec: `DatastoreRepository.beforePersist` (the base-class
hook, whose implementation is not under src/) is the identity by default
("protected extension hook, identity by default"). -/
def baseBeforePersist (entities : OneOrMany TimestampedEntity) :
    OneOrMany TimestampedEntity :=
  entities

/-- Source: `TimestampedRepository.beforePersist` — map `updateTimestamps`
over an array input, apply it directly to a single input, then delegate to
the base hook. -/
def beforePersist (disableFlag : Bool) (now : DateMs)
    (entities : OneOrMany TimestampedEntity) : OneOrMany TimestampedEntity :=
  let updated :=
    match entities with
    | .many l => OneOrMany.many (l.map (updateTimestamps disableFlag now))
    | .one e => OneOrMany.one (updateTimestamps disableFlag now e)
  baseBeforePersist updated

/-! ## Recursive batch delete (deleteCollection, from src/unnamed/part_000) -/

/-- Source: `deleteCollection` — with `n` documents in the collection, one
round fetches `min 100 n` documents (`collection.limit(100).get()`), deletes
them in one batch commit, and recurses exactly when the round fetched a full
batch of 100. Returns the number of documents left when the recursion stops. -/
def deleteCollection (n : Nat) : Nat :=
  if _h : min 100 n = 100 then deleteCollection (n - min 100 n) else n - min 100 n
termination_by n
decreasing_by omega

/-- The sizes of the successive fetched batches of `deleteCollection`,
one entry per round. -/
def deleteCollectionBatches (n : Nat) : List Nat :=
  if _h : min 100 n = 100 then min 100 n :: deleteCollectionBatches (n - min 100 n)
  else [min 100 n]
termination_by n
decreasing_by omega

theorem deleteCollection_eq (n : Nat) :
    deleteCollection n = if 100 ≤ n then deleteCollection (n - 100) else 0 := by
  rw [deleteCollection.eq_def]
  rcases le_or_lt 100 n with h | h
  · have hm : min 100 n = 100 := by omega
    rw [dif_pos hm, if_pos h, hm]
  · have hm : ¬ min 100 n = 100 := by omega
    rw [dif_neg hm, if_neg (by omega)]
    omega

theorem deleteCollectionBatches_eq (n : Nat) :
    deleteCollectionBatches n =
      if 100 ≤ n then 100 :: deleteCollectionBatches (n - 100) else [n] := by
  rw [deleteCollectionBatches.eq_def]
  rcases le_or_lt 100 n with h | h
  · have hm : min 100 n = 100 := by omega
    rw [dif_pos hm, if_pos h, hm]
  · have hm : ¬ min 100 n = 100 := by omega
    have hv : min 100 n = n := by omega
    rw [dif_neg hm, if_neg (by omega), hv]

theorem deleteCollection_zero_left (n : Nat) : deleteCollection n = 0 := by
  induction n using Nat.strong_induction_on with
  | _ n ih =>
    rw [deleteCollection_eq]
    rcases le_or_lt 100 n with h | h
    · rw [if_pos h]
      exact ih (n - 100) (by omega)
    · rw [if_neg (by omega)]

theorem deleteCollectionBatches_le (n : Nat) :
    ∀ b ∈ deleteCollectionBatches n, b ≤ 100 := by
  induction n using Nat.strong_induction_on with
  | _ n ih =>
    rw [deleteCollectionBatches_eq]
    rcases le_or_lt 100 n with h | h
    · rw [if_pos h]
      intro b hb
      rcases List.mem_cons.mp hb with hb | hb
      · omega
      · exact ih (n - 100) (by omega) b hb
    · rw [if_neg (by omega)]
      intro b hb
      rcases List.mem_singleton.mp hb with rfl
      omega

theorem deleteCollectionBatches_sum (n : Nat) :
    (deleteCollectionBatches n).sum = n := by
  induction n using Nat.strong_induction_on with
  | _ n ih =>
    rw [deleteCollectionBatches_eq]
    rcases le_or_lt 100 n with h | h
    · rw [if_pos h]
      simp only [List.sum_cons]
      rw [ih (n - 100) (by omega)]
      omega
    · rw [if_neg (by omega)]
      simp

/-! ## Repository core (modelled from the spec) -/

/-- Modelled from the spec: an application-level record — "always has a string
`id` plus arbitrary additional fields" (the `DatastoreRepository`
implementation is not under src/, only its test suite is). -/
structure Entity where
  id : String
  fields : List (String × String)
deriving DecidableEq, Repr

/-- The persisted state of one collection: the stored documents. -/
abbrev Store := List Entity

/-- Direct lookup of a document by id. -/
def lookupStore (s : Store) (i : String) : Option Entity :=
  s.find? (fun e => e.id == i)

/-- Modelled from the spec: the error taxonomy of §7 (`NotFoundError` raised
by `getRequired` naming the missing id, `AlreadyExistsError` raised by
`insert`, `ValidationError` naming the failing id). -/
inductive RepoError where
  | invalidId (id : String)
  | alreadyExists
  | validationFailed (id : String)
deriving DecidableEq, Repr

/-- Modelled from the spec: `save` is an idempotent upsert that "overwrites
existing document entirely (not a merge)". -/
def saveStore (s : Store) (e : Entity) : Store :=
  (s.filter (fun x => x.id != e.id)) ++ [e]

/-- Modelled from the spec: `get(id)` — missing documents yield null. -/
def getStore (s : Store) (i : String) : Option Entity :=
  lookupStore s i

/-- Modelled from the spec: `getRequired(id)` — like `get` but fails with an
"invalid id"-class error naming the missing id. -/
def getRequiredOne (s : Store) (i : String) : Except RepoError Entity :=
  match lookupStore s i with
  | none => .error (.invalidId i)
  | some e => .ok e

/-- Modelled from the spec: `getRequired(ids)` — fails if any requested id is
missing, naming the first missing id encountered. -/
def getRequiredMany (s : Store) : List String → Except RepoError (List Entity)
  | [] => .ok []
  | i :: rest =>
    match lookupStore s i with
    | none => .error (.invalidId i)
    | some e =>
      match getRequiredMany s rest with
      | .error err => .error err
      | .ok es => .ok (e :: es)

/-- Modelled from the spec: `insert(entities)` — "like save but fails with
`AlreadyExistsError` if any target id already exists; atomic per call
(partial inserts not permitted — either all succeed or none persist)". -/
def insertStore (s : Store) (es : List Entity) : Except RepoError Store :=
  if es.any (fun e => (lookupStore s e.id).isSome) then .error .alreadyExists
  else .ok (es.foldl saveStore s)

/-- The collection state after an `insert` call: the new store on success,
the untouched previous store when the call failed. -/
def applyInsert (s : Store) (es : List Entity) : Store :=
  match insertStore s es with
  | .ok t => t
  | .error _ => s

theorem lookupStore_save_self (s : Store) (e : Entity) :
    lookupStore (saveStore s e) e.id = some e := by
  unfold lookupStore saveStore
  simp

theorem getRequiredMany_error_of_missing (s : Store) (ids : List String)
    (h : ∃ k ∈ ids, lookupStore s k = none) :
    ∃ m, getRequiredMany s ids = .error (.invalidId m) ∧ lookupStore s m = none := by
  induction ids with
  | nil => simp at h
  | cons i rest ih =>
    cases hi : lookupStore s i with
    | none => exact ⟨i, by simp [getRequiredMany, hi], hi⟩
    | some e =>
      have hr : ∃ k ∈ rest, lookupStore s k = none := by
        rcases h with ⟨k, hk, hkn⟩
        rcases List.mem_cons.mp hk with rfl | hk
        · rw [hi] at hkn; cases hkn
        · exact ⟨k, hk, hkn⟩
      obtain ⟨m, hm, hmn⟩ := ih hr
      refine ⟨m, ?_, hmn⟩
      simp only [getRequiredMany, hi, hm]

theorem getRequiredMany_first_missing (s : Store) (pre post : List String) (j : String)
    (hpre : ∀ p ∈ pre, (lookupStore s p).isSome) (hj : lookupStore s j = none) :
    getRequiredMany s (pre ++ j :: post) = .error (.invalidId j) := by
  induction pre with
  | nil => simp [getRequiredMany, hj]
  | cons p pre ih =>
    have hp : (lookupStore s p).isSome := hpre p (List.mem_cons_self p pre)
    obtain ⟨ep, hep⟩ := Option.isSome_iff_exists.mp hp
    have ih2 := ih (fun q hq => hpre q (List.mem_cons_of_mem p hq))
    simp only [List.cons_append, getRequiredMany, hep, List.append_eq, ih2]

/-! ## Search synchronization (modelled from the spec) -/

/-- Field values stored in an entity field bag, looked up by name. -/
def lookupField (e : Entity) (k : String) : Option String :=
  e.fields.lookup k

/-- Modelled from the spec: a configured index field mapping — either "copy
value as-is" (`true` in the config) or a deriving function applied to the
entity. -/
inductive FieldMapping where
  | literal
  | derive (f : Entity → Option String)

/-- The search index configuration: one mapping per indexed field name. -/
abbrev IndexConfig := List (String × FieldMapping)

/-- Modelled from the spec: an `IndexEntry` is `{id, fields}`. -/
structure IndexEntry where
  id : String
  fields : List (String × Option String)

/-- Evaluate the configured index field mappings against one entity. -/
def toIndexEntry (cfg : IndexConfig) (e : Entity) : IndexEntry :=
  { id := e.id
    fields := cfg.map (fun m =>
      (m.1, match m.2 with
            | .literal => lookupField e m.1
            | .derive f => f e)) }

/-- Modelled from the spec: the calls a repository issues to the external
search service. -/
inductive SearchCall where
  | index (indexName : String) (entries : List IndexEntry)
  | delIds (indexName : String) (ids : List String)
  | delAll (indexName : String)

/-- Modelled from the spec: a batch save on a repository with search
configured — persist every entity, then issue exactly one `index` call with
one computed entry per saved entity, evaluated against the post-persist
entity state. -/
def saveWithSearch (cfg : IndexConfig) (indexName : String) (s : Store)
    (es : List Entity) : Store × List SearchCall :=
  let s2 := es.foldl saveStore s
  (s2, [SearchCall.index indexName (es.map (toIndexEntry cfg))])

/-- Modelled from the spec: `delete(ids)` removes the documents. -/
def deleteStore (s : Store) (ids : List String) : Store :=
  s.filter (fun e => !(ids.contains e.id))

/-- Modelled from the spec: a delete on a repository with search configured
issues one search-service delete call naming exactly the deleted ids. -/
def deleteWithSearch (indexName : String) (s : Store) (ids : List String) :
    Store × List SearchCall :=
  (deleteStore s ids, [SearchCall.delIds indexName ids])

/-! ## Query projection and ordering (modelled from the spec) -/

/-- The sentinel field and sort-property name that stands for the key/id. -/
def keySentinel : String := "__key__"

/-- Modelled from the spec: apply a projection to an entity — an empty
`select` means all fields, otherwise only the selected fields are kept. -/
def projectEntity (select : List String) (e : Entity) : Entity :=
  if select = [] then e
  else { id := e.id, fields := e.fields.filter (fun p => select.contains p.1) }

/-- Modelled from the spec: run a projection query over the matched entities.
The id-only projection returns bare `{id}` entities and suppresses the
validator pass; otherwise a configured validator checks every decoded result
and the query fails with a load `ValidationError` on the first failure. -/
def runQuery (validator : Option (Entity → Bool)) (select : List String)
    (es : List Entity) : Except RepoError (List Entity) :=
  if select = [keySentinel] then
    .ok (es.map (fun e => { id := e.id, fields := [] }))
  else
    let projected := es.map (projectEntity select)
    match validator with
    | none => .ok projected
    | some v =>
      match projected.find? (fun e => ! v e) with
      | some bad => .error (.validationFailed bad.id)
      | none => .ok projected

/-- Modelled from the spec: one sort clause — `{property, options:
{descending}}`; the sentinel property sorts by key/id. -/
structure SortKey where
  property : String
  descending : Bool

/-- Compare two optional field values; an absent value sorts first. -/
def cmpOptStr : Option String → Option String → Ordering
  | none, none => .eq
  | none, some _ => .lt
  | some _, none => .gt
  | some a, some b => compare a b

/-- The value an entity contributes under a sort property; the sentinel
property reads the id. -/
def sortFieldValue (e : Entity) (p : String) : Option String :=
  if p = keySentinel then some e.id else lookupField e p

/-- Modelled from the spec: lexicographic comparison along the sort clauses —
ties on a key are broken by the subsequent keys. -/
def cmpBySorts : List SortKey → Entity → Entity → Ordering
  | [], _, _ => .eq
  | k :: rest, a, b =>
    let c := cmpOptStr (sortFieldValue a k.property) (sortFieldValue b k.property)
    let c2 := if k.descending then c.swap else c
    match c2 with
    | .eq => cmpBySorts rest a b
    | o => o

/-- Stable insertion of an entity into an already sorted list: it goes after
every element it does not strictly precede. -/
def insertSortedBy (lt : Entity → Entity → Bool) (e : Entity) :
    List Entity → List Entity
  | [] => [e]
  | x :: xs => if lt e x then e :: x :: xs else x :: insertSortedBy lt e xs

/-- Modelled from the spec: stable sort of the query results along the sort
clauses ("result ordering must be stable and match the sort spec exactly"). -/
def sortEntities (keys : List SortKey) (es : List Entity) : List Entity :=
  es.foldl (fun acc e =>
    insertSortedBy (fun a b => cmpBySorts keys a b == Ordering.lt) e acc) []

/-- A two-property entity of the ordering test data. -/
def orderItem (id p1 p2 : String) : Entity :=
  { id := id, fields := [("prop1", p1), ("prop2", p2)] }

/-- The concrete ordering dataset of the test suite: prop1 values
AA, BA, AB, BB, CA under ids 123, 234, 345, 456, 567. -/
def orderingDataset : List Entity :=
  [orderItem "123" "AA" "XX", orderItem "234" "BA" "XX", orderItem "345" "AB" "ZZ",
   orderItem "456" "BB" "YY", orderItem "567" "CA" "XX"]

/-- A concrete one-document store used by the witnesses. -/
def sampleStore : Store := [{ id := "123", fields := [("name", "test123")] }]

/-- A concrete entity with a fresh id, used by the witnesses. -/
def sampleNew : Entity := { id := "555", fields := [("name", "Test Item 555")] }

/-- A concrete entity whose id collides with `sampleStore`, used by the
witnesses. -/
def sampleDupe : Entity := { id := "123", fields := [("message", "insert again")] }

/-! ## Claim theorems on the repository core -/

/-- C2: `getRequired` on a missing id fails with an "invalid id"-class error
naming that id; on a list of ids it fails whenever any requested id is
missing, and the error names the first missing id encountered (every id
before it resolves, `j` does not). -/
theorem getRequired_names_first_missing (s : Store) (i j : String)
    (pre post : List String)
    (hi : lookupStore s i = none)
    (hpre : ∀ p ∈ pre, (lookupStore s p).isSome)
    (hj : lookupStore s j = none) :
    getRequiredOne s i = .error (.invalidId i)
    ∧ getRequiredMany s (pre ++ j :: post) = .error (.invalidId j)
    ∧ (∀ ids : List String, (∃ k ∈ ids, lookupStore s k = none) →
        ∃ m, getRequiredMany s ids = .error (.invalidId m) ∧ lookupStore s m = none) := by
  refine ⟨?_, getRequiredMany_first_missing s pre post j hpre hj,
    fun ids h => getRequiredMany_error_of_missing s ids h⟩
  unfold getRequiredOne
  rw [hi]

/-- Witness for C2 on a concrete store: a single missing id is named, and a
batch naming one present and two missing ids fails on the first missing. -/
theorem getRequired_names_first_missing_witness :
    getRequiredOne sampleStore "nope" = .error (.invalidId "nope")
    ∧ getRequiredMany sampleStore (["123"] ++ "does-not-exist" :: ["also-does-not-exist"])
        = .error (.invalidId "does-not-exist") :=
  have h := getRequired_names_first_missing sampleStore "nope" "does-not-exist"
    ["123"] ["also-does-not-exist"] (by decide) (by decide) (by decide)
  ⟨h.1, h.2.1⟩

/-- C3: inserting an entity and then inserting again with the same id fails
with `AlreadyExistsError`; a batch insert containing any already-existing id
fails as a whole, and the failed call persists nothing — the store is exactly
the store before the call. -/
theorem insert_existing_id_fails (s : Store) (e : Entity) (es : List Entity)
    (h1 : lookupStore s e.id = none) :
    insertStore s [e] = .ok (saveStore s e)
    ∧ insertStore (saveStore s e) [e] = .error .alreadyExists
    ∧ ((∃ x ∈ es, (lookupStore s x.id).isSome) →
        insertStore s es = .error .alreadyExists ∧ applyInsert s es = s) := by
  refine ⟨?_, ?_, ?_⟩
  · unfold insertStore
    simp [h1]
  · unfold insertStore
    simp [lookupStore_save_self]
  · rintro ⟨x, hx, hxs⟩
    have hany : es.any (fun y => (lookupStore s y.id).isSome) = true :=
      List.any_eq_true.mpr ⟨x, hx, hxs⟩
    have h2 : insertStore s es = .error .alreadyExists := by
      unfold insertStore
      simp [hany]
    refine ⟨h2, ?_⟩
    unfold applyInsert
    rw [h2]

/-- Witness for C3 on concrete data: a fresh insert succeeds, the repeat
insert fails, and a batch colliding with a stored id fails leaving the store
untouched. -/
theorem insert_existing_id_fails_witness :
    insertStore sampleStore [sampleNew] = .ok (saveStore sampleStore sampleNew)
    ∧ insertStore (saveStore sampleStore sampleNew) [sampleNew] = .error .alreadyExists
    ∧ (insertStore sampleStore [sampleDupe] = .error .alreadyExists
        ∧ applyInsert sampleStore [sampleDupe] = sampleStore) :=
  have h := insert_existing_id_fails sampleStore sampleNew [sampleDupe] (by decide)
  ⟨h.1, h.2.1, h.2.2 (by decide)⟩

/-- C4: saving `e` then `e2` with the same id fully replaces the stored
document with `e2`: a subsequent `get` of that id returns exactly `e2`, and
any field of `e` absent from `e2` is gone from the stored document. -/
theorem save_fully_overwrites (s : Store) (e e2 : Entity) (h : e.id = e2.id) :
    getStore (saveStore (saveStore s e) e2) e.id = some e2
    ∧ (∀ p, p ∈ e.fields → p ∉ e2.fields →
        ∀ d, getStore (saveStore (saveStore s e) e2) e.id = some d → p ∉ d.fields) := by
  have h1 : getStore (saveStore (saveStore s e) e2) e2.id = some e2 :=
    lookupStore_save_self (saveStore s e) e2
  rw [h]
  refine ⟨h1, ?_⟩
  intro p hp hnp d hd
  rw [h1] at hd
  injection hd with hde
  subst hde
  exact hnp

/-- Witness for C4 on concrete data: after saving `{message: create}` and
then `{message2: save}` under id "123", `get` returns the second entity and
the field of the first save is gone. -/
theorem save_fully_overwrites_witness :
    getStore (saveStore (saveStore [] { id := "123", fields := [("message", "create")] })
        { id := "123", fields := [("message2", "save")] }) "123"
      = some { id := "123", fields := [("message2", "save")] }
    ∧ ("message", "create") ∉ ({ id := "123", fields := [("message2", "save")] } : Entity).fields :=
  have h := save_fully_overwrites [] { id := "123", fields := [("message", "create")] }
    { id := "123", fields := [("message2", "save")] } rfl
  ⟨h.1, h.2 ("message", "create") (by decide) (by decide) _ h.1⟩

/-- The index configuration of the search test suite: a literal copy of
prop1, an upper-cased derivation of prop2, and a custom derivation prefixing
prop3. -/
def sampleIndexConfig : IndexConfig :=
  [("prop1", .literal),
   ("prop2", .derive (fun e => (lookupField e "prop2").map String.toUpper)),
   ("custom", .derive (fun e => (lookupField e "prop3").map (fun v => "custom_" ++ v)))]

/-- A concrete entity of the search test data. -/
def sampleSearchItem : Entity :=
  { id := "item1",
    fields := [("name", "item1"), ("prop1", "item1_prop1"),
               ("prop2", "item1_prop2"), ("prop3", "item1_prop3")] }

/-- C6: every batch save on a repository with search configured issues
exactly one `index` call to the search service, containing exactly one entry
per saved entity whose fields are the configured mappings (literal copy or
deriving function) evaluated against the post-persist entity state; a delete
issues exactly one search-service delete call naming exactly the deleted
ids. -/
theorem search_sync_single_index_call (cfg : IndexConfig) (nm : String)
    (s : Store) (es : List Entity) (ids : List String) :
    (saveWithSearch cfg nm s es).2 = [SearchCall.index nm (es.map (toIndexEntry cfg))]
    ∧ (saveWithSearch cfg nm s es).2.length = 1
    ∧ (es.map (toIndexEntry cfg)).length = es.length
    ∧ (saveWithSearch cfg nm s es).1 = es.foldl saveStore s
    ∧ (∀ e ∈ es, toIndexEntry cfg e =
        { id := e.id
          fields := cfg.map (fun m =>
            (m.1, match m.2 with
                  | .literal => lookupField e m.1
                  | .derive f => f e)) })
    ∧ (deleteWithSearch nm s ids).2 = [SearchCall.delIds nm ids] := by
  exact ⟨rfl, rfl, List.length_map es _, rfl, fun e _ => rfl, rfl⟩

/-- Witness for C6 at the concrete test configuration: the entry computed
for the sample item copies prop1 literally and applies the deriving
functions, and a two-id delete issues one delete call naming both ids. -/
theorem search_sync_single_index_call_witness :
    (saveWithSearch sampleIndexConfig "item" [] [sampleSearchItem]).2
      = [SearchCall.index "item" [toIndexEntry sampleIndexConfig sampleSearchItem]]
    ∧ toIndexEntry sampleIndexConfig sampleSearchItem =
        { id := "item1"
          fields := sampleIndexConfig.map (fun m =>
            (m.1, match m.2 with
                  | .literal => lookupField sampleSearchItem m.1
                  | .derive f => f sampleSearchItem)) }
    ∧ (deleteWithSearch "item" [] ["item1", "item2"]).2
        = [SearchCall.delIds "item" ["item1", "item2"]] :=
  have h := search_sync_single_index_call sampleIndexConfig "item" []
    [sampleSearchItem] ["item1", "item2"]
  ⟨h.1, h.2.2.2.2.1 sampleSearchItem (by simp), h.2.2.2.2.2⟩

/-- C7: a query whose projection is the id-only sentinel field returns bare
`{id}` entities and never consults the configured validator — it succeeds
even under a validator that rejects everything — while a projection that
selects zero fields keeps all fields and hence still includes the id of each
result. -/
theorem idOnly_projection_skips_validator (v : Entity → Bool) (es : List Entity) :
    runQuery (some v) [keySentinel] es
      = .ok (es.map (fun e => { id := e.id, fields := [] }))
    ∧ (∀ r ∈ es.map (fun e => ({ id := e.id, fields := [] } : Entity)), r.fields = [])
    ∧ (∀ e : Entity, projectEntity [] e = e)
    ∧ (∀ e : Entity, (projectEntity [] e).id = e.id) := by
  refine ⟨rfl, ?_, fun e => rfl, fun e => rfl⟩
  intro r hr
  obtain ⟨e, _, rfl⟩ := List.mem_map.mp hr
  rfl

/-- Witness for C7 at a concrete store and the always-rejecting validator:
the id-only query still succeeds, with bare id entities. -/
theorem idOnly_projection_skips_validator_witness :
    runQuery (some (fun _ => false)) [keySentinel] sampleStore
      = .ok (sampleStore.map (fun e => { id := e.id, fields := [] }))
    ∧ ({ id := "123", fields := [] } : Entity).fields = [] :=
  have h := idOnly_projection_skips_validator (fun _ => false) sampleStore
  ⟨h.1, h.2.1 { id := "123", fields := [] } (by simp [sampleStore])⟩

/-- C8: on the test dataset (prop1 values AA, BA, AB, BB, CA), an ascending
sort by prop1 returns the ids in the AA, AB, BA, BB, CA order, the
descending sort returns exactly the reverse order, and a tie on the first
sort key is broken by the subsequent sort key (both in general and on the
concrete multi-key dataset). -/
theorem query_ordering_matches (k : SortKey) (rest : List SortKey) (a b : Entity)
    (h : cmpOptStr (sortFieldValue a k.property) (sortFieldValue b k.property) = .eq) :
    (sortEntities [⟨"prop1", false⟩] orderingDataset).map (fun e => e.id)
        = ["123", "345", "234", "456", "567"]
    ∧ sortEntities [⟨"prop1", true⟩] orderingDataset
        = (sortEntities [⟨"prop1", false⟩] orderingDataset).reverse
    ∧ (sortEntities [⟨"prop2", false⟩, ⟨"prop1", true⟩] orderingDataset).map (fun e => e.id)
        = ["567", "234", "123", "456", "345"]
    ∧ cmpBySorts (k :: rest) a b = cmpBySorts rest a b := by
  refine ⟨by decide, by decide, by decide, ?_⟩
  have hstep : cmpBySorts (k :: rest) a b =
      (match (if k.descending then
          (cmpOptStr (sortFieldValue a k.property) (sortFieldValue b k.property)).swap
        else cmpOptStr (sortFieldValue a k.property) (sortFieldValue b k.property)) with
       | .eq => cmpBySorts rest a b
       | o => o) := rfl
  rw [hstep, h]
  cases k.descending <;> rfl

/-- Witness for C8: the tie-break hypothesis holds for two concrete entities
agreeing on prop2, and the concrete orderings follow. -/
theorem query_ordering_matches_witness :
    (sortEntities [⟨"prop1", false⟩] orderingDataset).map (fun e => e.id)
        = ["123", "345", "234", "456", "567"]
    ∧ cmpBySorts [⟨"prop2", false⟩, ⟨"prop1", true⟩]
          (orderItem "123" "AA" "XX") (orderItem "567" "CA" "XX")
        = cmpBySorts [⟨"prop1", true⟩]
          (orderItem "123" "AA" "XX") (orderItem "567" "CA" "XX") :=
  have h := query_ordering_matches ⟨"prop2", false⟩ [⟨"prop1", true⟩]
    (orderItem "123" "AA" "XX") (orderItem "567" "CA" "XX") (by decide)
  ⟨h.1, h.2.2.2⟩

/-! ## Claim theorems on the timestamped repository and deleteCollection -/

/-- C1: with the disable flag unset, `updateTimestamps` always sets
`updatedAt` to the current time; it sets `createdAt` to the current time
exactly when the input `createdAt` is absent or the `GENERATE_FLAG` sentinel,
and preserves it unchanged otherwise; consequently a second save (at a later
time `now2`, with the first stamped time not the sentinel) keeps the
`createdAt` produced by the first save while advancing `updatedAt`. -/
theorem timestamps_set_on_persist (now now2 : DateMs) (e : TimestampedEntity)
    (h : now ≠ GENERATE_FLAG) :
    (updateTimestamps false now e).updatedAt = some now
    ∧ (updateTimestamps false now e).createdAt =
        (if e.createdAt = none ∨ e.createdAt = some GENERATE_FLAG then some now
         else e.createdAt)
    ∧ (updateTimestamps false now2 (updateTimestamps false now e)).createdAt
        = (updateTimestamps false now e).createdAt
    ∧ (updateTimestamps false now2 (updateTimestamps false now e)).updatedAt = some now2 := by
  refine ⟨rfl, rfl, ?_, rfl⟩
  by_cases hc : e.createdAt = none ∨ e.createdAt = some GENERATE_FLAG
  · have hx : (updateTimestamps false now e).createdAt = some now := by
      simp [updateTimestamps, hc]
    generalize hY : updateTimestamps false now e = Y at hx ⊢
    simp [updateTimestamps, hx, h]
  · have hx : (updateTimestamps false now e).createdAt = e.createdAt := by
      simp [updateTimestamps, hc]
    push_neg at hc
    generalize hY : updateTimestamps false now e = Y at hx ⊢
    simp [updateTimestamps, hx, hc.1, hc.2]

/-- Witness for C1 at a concrete entity: a fresh entity has its `createdAt`
stamped on first save and preserved on second save. -/
theorem timestamps_set_on_persist_witness :
    (updateTimestamps false 1000 (newTimestampedEntity "a")).updatedAt = some 1000
    ∧ (updateTimestamps false 1000 (newTimestampedEntity "a")).createdAt =
        (if (newTimestampedEntity "a").createdAt = none
            ∨ (newTimestampedEntity "a").createdAt = some GENERATE_FLAG then some 1000
         else (newTimestampedEntity "a").createdAt)
    ∧ (updateTimestamps false 2000 (updateTimestamps false 1000 (newTimestampedEntity "a"))).createdAt
        = (updateTimestamps false 1000 (newTimestampedEntity "a")).createdAt
    ∧ (updateTimestamps false 2000 (updateTimestamps false 1000 (newTimestampedEntity "a"))).updatedAt
        = some 2000 :=
  timestamps_set_on_persist 1000 2000 (newTimestampedEntity "a") (by decide)

/-- C5: with the `DISABLE_TIMESTAMP_UPDATE` flag set, the persistence hook
returns its input completely unchanged, for a single entity and for an array
of entities alike. -/
theorem hook_identity_when_disabled (now : DateMs) (es : OneOrMany TimestampedEntity) :
    beforePersist true now es = es := by
  cases es with
  | one e => simp [beforePersist, baseBeforePersist, updateTimestamps]
  | many l =>
    simp only [beforePersist, baseBeforePersist, OneOrMany.many.injEq]
    have : updateTimestamps true now = id := by
      funext e
      simp [updateTimestamps]
    rw [this, List.map_id]

/-- C10: with the disable flag unset, `beforePersist` changes at most the
`createdAt` and `updatedAt` fields — id and every other field are preserved —
a single input yields a single output, and an array input yields an array of
the same length whose element at each position is the timestamped image of
the input element at that position. -/
theorem hook_frame_effect (now : DateMs) :
    (∀ e : TimestampedEntity,
      (updateTimestamps false now e).id = e.id
      ∧ (updateTimestamps false now e).rest = e.rest)
    ∧ (∀ e : TimestampedEntity,
        beforePersist false now (.one e) = .one (updateTimestamps false now e))
    ∧ (∀ l : List TimestampedEntity,
        beforePersist false now (.many l) = .many (l.map (updateTimestamps false now))
        ∧ (l.map (updateTimestamps false now)).length = l.length) := by
  refine ⟨fun e => ⟨?_, ?_⟩, fun e => rfl, fun l => ⟨rfl, List.length_map l _⟩⟩
  · simp [updateTimestamps]
  · simp [updateTimestamps]

/-- C9: on a collection of `n` documents with no concurrent writers, the
recursive batch delete terminates (it is a well-founded recursion), each round
fetches and deletes at most 100 documents, the batch sizes account for every
document so the collection ends with zero documents, and the recursion
continues exactly when a round fetched a full batch of 100. -/
theorem deleteCollection_deletes_all (n : Nat) :
    deleteCollection n = 0
    ∧ (∀ b ∈ deleteCollectionBatches n, b ≤ 100)
    ∧ (deleteCollectionBatches n).sum = n
    ∧ (100 ≤ n → deleteCollectionBatches n = 100 :: deleteCollectionBatches (n - 100))
    ∧ (n < 100 → deleteCollectionBatches n = [n]) := by
  refine ⟨deleteCollection_zero_left n, deleteCollectionBatches_le n,
    deleteCollectionBatches_sum n, ?_, ?_⟩
  · intro h
    rw [deleteCollectionBatches_eq, if_pos h]
  · intro h
    rw [deleteCollectionBatches_eq, if_neg (by omega)]

/-- Witness for C9 at a concrete collection size: 250 documents are removed
in rounds of 100, 100, 50. -/
theorem deleteCollection_deletes_all_witness :
    deleteCollection 250 = 0
    ∧ (∀ b ∈ deleteCollectionBatches 250, b ≤ 100)
    ∧ (deleteCollectionBatches 250).sum = 250
    ∧ (100 ≤ 250 → deleteCollectionBatches 250 = 100 :: deleteCollectionBatches 150)
    ∧ (250 < 100 → deleteCollectionBatches 250 = [250]) :=
  deleteCollection_deletes_all 250

end GaeJs
